import Mathlib

/-
Verification development for the POVC fund-model repository.

Shallow embedding conventions:
  * every JS `number` is modelled as an exact rational (ℚ);
  * wall-clock data (`Date` fields, `performance.now`, `new Date().getFullYear()`)
    is omitted from the embedded records: it is environment input, not part of
    the computation the claims are about;
  * free-text `message` strings of validation errors are omitted (they are
    float-formatted display text); `field`, `code`, `value` and the constant
    `suggestion` strings are kept;
  * JS exceptions are modelled with `Except`;
  * the unbounded mutual recursion `run`/`runWithWebWorkers` of the batch
    runner is modelled with an explicit fuel parameter (`none` = the call does
    not return within the given call depth, and since every level consumes one
    unit of fuel, `none` for all fuel values = the call never returns).
-/

namespace Updog

/-! ## Data model (src/shared/enhanced-types.ts) -/

/-- FundStage: the closed, ordered set of stages. -/
inductive FundStage
  | preSeed | seed | seriesA | seriesB | seriesC | seriesDPlus
deriving DecidableEq

structure TargetReturns where
  low : ℚ
  target : ℚ
  high : ℚ
deriving DecidableEq

structure StageStrategy where
  stage : FundStage
  allocationPct : ℚ
  checkCount : ℚ
  avgInitialCheck : ℚ
  ownership : ℚ
  reserveRatio : ℚ
  targetReturns : TargetReturns
deriving DecidableEq

/-- GraduationMatrix: a sparse JS object from stage to (destination stage → rate);
modelled as an association list in object-key insertion order. -/
abbrev GraduationMatrix := List (FundStage × List (FundStage × ℚ))

structure ExitProbs where
  fail : ℚ
  low : ℚ
  med : ℚ
  high : ℚ
  mega : ℚ
deriving DecidableEq

/-- ExitProbabilities: a total record over the six stages. -/
structure ExitProbabilityMatrix where
  preSeed : ExitProbs
  seed : ExitProbs
  seriesA : ExitProbs
  seriesB : ExitProbs
  seriesC : ExitProbs
  seriesDPlus : ExitProbs
deriving DecidableEq

/-- Partial ExitProbabilities (a scenario override): per-stage optional rows. -/
structure PartialExitProbabilityMatrix where
  preSeed : Option ExitProbs
  seed : Option ExitProbs
  seriesA : Option ExitProbs
  seriesB : Option ExitProbs
  seriesC : Option ExitProbs
  seriesDPlus : Option ExitProbs
deriving DecidableEq

structure ExitMultiples where
  fail : ℚ
  low : ℚ
  med : ℚ
  high : ℚ
  mega : ℚ
deriving DecidableEq

structure ExitMultiplesMatrix where
  preSeed : ExitMultiples
  seed : ExitMultiples
  seriesA : ExitMultiples
  seriesB : ExitMultiples
  seriesC : ExitMultiples
  seriesDPlus : ExitMultiples
deriving DecidableEq

structure PartialExitMultiples where
  fail : Option ℚ
  low : Option ℚ
  med : Option ℚ
  high : Option ℚ
  mega : Option ℚ
deriving DecidableEq

inductive FeeBasis
  | committed | invested | custom
deriving DecidableEq

inductive WaterfallType
  | american | european
deriving DecidableEq

inductive Currency
  | usd | eur | gbp
deriving DecidableEq

structure FeeProfile where
  managementFeeRate : ℚ
  managementFeeBasis : FeeBasis
  carryRate : ℚ
  hurdleRate : ℚ
  catchUp : Bool
  catchUpRate : ℚ
  gpCommitment : ℚ
  organizationalExpenses : ℚ
  fundExpenses : ℚ
  annualExpensesCap : Option ℚ
deriving DecidableEq

/-- Partial FeeProfile (a scenario feeAdjustments override). -/
structure PartialFeeProfile where
  managementFeeRate : Option ℚ
  managementFeeBasis : Option FeeBasis
  carryRate : Option ℚ
  hurdleRate : Option ℚ
  catchUp : Option Bool
  catchUpRate : Option ℚ
  gpCommitment : Option ℚ
  organizationalExpenses : Option ℚ
  fundExpenses : Option ℚ
  annualExpensesCap : Option ℚ
deriving DecidableEq

/-- EnhancedFundInputs (the optional advanced fields extensionQuarters,
recycling and keyPersonProvisions are carried by no code path the claims
touch and are omitted). -/
structure EnhancedFundInputs where
  fundName : String
  fundSize : ℚ
  currency : Currency
  vintage : ℚ
  feeProfile : FeeProfile
  stageStrategies : List StageStrategy
  graduationMatrix : GraduationMatrix
  exitProbabilityMatrix : ExitProbabilityMatrix
  exitMultiples : ExitMultiplesMatrix
  investmentPeriodQuarters : ℚ
  fundLifeQuarters : ℚ
  waterfallType : WaterfallType
  lpClawback : Bool
deriving DecidableEq

inductive CompanyStatus
  | active | exited | writtenOff
deriving DecidableEq

/-- Investment (enhanced-types); `date : Date` omitted (wall clock). -/
structure Investment where
  id : String
  stage : FundStage
  amount : ℚ
  quarter : ℚ
  ownership : ℚ
  valuation : ℚ
  isFollowOn : Bool
  round : String
deriving DecidableEq

/-- PortfolioCompany; `exitDate`, `lastRoundDate` omitted (wall clock). -/
structure PortfolioCompany where
  id : String
  name : String
  entryStage : FundStage
  currentStage : FundStage
  investments : List Investment
  totalInvested : ℚ
  currentValuation : Option ℚ
  exitValue : Option ℚ
  exitQuarter : Option ℚ
  status : CompanyStatus
  sector : Option String
  geography : Option String
  foundedYear : Option ℚ
  lastRoundValuation : Option ℚ
deriving DecidableEq

/-- CashFlowPoint; `date : Date` omitted (wall clock). -/
structure CashFlowPoint where
  quarter : ℚ
  year : ℚ
  yearQuarter : String
  contributions : ℚ
  distributions : ℚ
  managementFees : ℚ
  carriedInterest : ℚ
  netCashFlow : ℚ
  cumulativeContributions : ℚ
  cumulativeDistributions : ℚ
  cumulativeManagementFees : ℚ
  cumulativeCarriedInterest : ℚ
  nav : ℚ
  dpi : ℚ
  rvpi : ℚ
  tvpi : ℚ
  moic : ℚ
  netMoic : ℚ
  grossIrr : ℚ
  netIrr : ℚ
  activeCompanies : ℚ
  exitedCompanies : ℚ
  writtenOffCompanies : ℚ
deriving DecidableEq

structure CompanyResult where
  companyId : String
  companyName : String
  entryStage : FundStage
  exitStage : Option FundStage
  invested : ℚ
  exitProceeds : ℚ
  unrealizedValue : ℚ
  totalValue : ℚ
  realizedMultiple : ℚ
  totalMultiple : ℚ
  irr : Option ℚ
  lpProceeds : ℚ
  gpCarry : ℚ
  holdingPeriod : ℚ
  exitQuarter : Option ℚ
deriving DecidableEq

structure WaterfallCalculation where
  dealId : String
  invested : ℚ
  proceeds : ℚ
  lpCapitalReturn : ℚ
  lpPreferredReturn : ℚ
  lpCatchUp : ℚ
  lpProfitShare : ℚ
  lpTotal : ℚ
  gpCatchUp : ℚ
  gpCarry : ℚ
  gpTotal : ℚ
  hurdleAchieved : Bool
  effectiveCarryRate : ℚ
deriving DecidableEq

structure WaterfallSummary where
  type : WaterfallType
  totalInvested : ℚ
  totalProceeds : ℚ
  totalProfit : ℚ
  lpCapitalReturned : ℚ
  lpPreferredReturn : ℚ
  lpProfitDistribution : ℚ
  totalLpDistribution : ℚ
  gpManagementFees : ℚ
  gpCarriedInterest : ℚ
  gpCatchUp : ℚ
  totalGpCompensation : ℚ
  lpNetMultiple : ℚ
  lpNetIrr : ℚ
  effectiveCarryRate : ℚ
  dealWaterfalls : Option (List WaterfallCalculation)
deriving DecidableEq

inductive WarnKind
  | data | calculation | assumption
deriving DecidableEq

inductive WarnSeverity
  | error | warning | info
deriving DecidableEq

structure ForecastWarning where
  type : WarnKind
  severity : WarnSeverity
  message : String
  field : Option String
  suggestion : Option String
deriving DecidableEq

structure PortfolioByStatus where
  active : ℚ
  exited : ℚ
  writtenOff : ℚ
deriving DecidableEq

structure PortfolioComposition where
  byStage : List (FundStage × ℚ)
  byStatus : PortfolioByStatus
  bySector : Option (List (String × ℚ))
  byGeography : Option (List (String × ℚ))
deriving DecidableEq

structure RiskMetrics where
  jCurveDepth : ℚ
  timeToBreakeven : ℚ
  lossRatio : ℚ
  concentrationRisk : ℚ
  diversificationScore : ℚ
deriving DecidableEq

inductive Methodology
  | deterministic | monteCarlo
deriving DecidableEq

structure MarketAssumptions where
  riskFreeRate : ℚ
  marketPremium : ℚ
  betaByStage : List (FundStage × ℚ)
deriving DecidableEq

structure OperationalAssumptions where
  defaultFollowOnReserveRatio : ℚ
  defaultOwnershipTarget : ℚ
  defaultBoardSeatThreshold : ℚ
deriving DecidableEq

structure CalculationParameters where
  irMaxIterations : ℚ
  irTolerance : ℚ
  navDiscountRate : ℚ
deriving DecidableEq

structure ModelAssumptions where
  version : String
  methodology : Methodology
  randomSeed : Option ℚ
  marketAssumptions : MarketAssumptions
  operationalAssumptions : OperationalAssumptions
  calculationParameters : CalculationParameters
deriving DecidableEq

/-- ForecastResult (enhanced-types); `calculationDate` and `vintage` omitted:
both are wall-clock-derived in the error path (`new Date()`,
`new Date().getFullYear()`). -/
structure ForecastResult where
  calculationId : String
  fundName : String
  timeline : List CashFlowPoint
  portfolio : List PortfolioCompany
  companyResults : List CompanyResult
  waterfallSummary : WaterfallSummary
  totalInvested : ℚ
  totalRealized : ℚ
  totalUnrealized : ℚ
  totalValue : ℚ
  totalManagementFees : ℚ
  totalCarriedInterest : ℚ
  totalOrganizationalExpenses : ℚ
  totalFundExpenses : ℚ
  grossMoic : ℚ
  netMoic : ℚ
  grossIrr : ℚ
  netIrr : ℚ
  tvpi : ℚ
  dpi : ℚ
  rvpi : ℚ
  portfolioComposition : PortfolioComposition
  riskMetrics : RiskMetrics
  warnings : List ForecastWarning
  assumptions : ModelAssumptions
deriving DecidableEq

/-! ## Validation service (src/services/validation.service.ts) -/

/-- Validation error codes, one constructor per `code:` string in the source. -/
inductive VCode
  | invalidFundSize
  | fundSizeTooSmall
  | fundSizeTooLarge
  | missingStageStrategies
  | invalidAllocationSum
  | invalidAllocationPct
  | invalidCheckCount
  | invalidCheckSize
  | invalidOwnership
  | invalidReserveRatio
  | invalidMgmtFee
  | invalidCarry
  | invalidHurdle
  | invalidGpCommit
  | excessiveGraduation
  | invalidTimeline
  | excessiveFundLife
deriving DecidableEq

/-- Validation error fields, one constructor per `field:` string pattern in the
source (indexed constructors stand for the interpolated index). -/
inductive VField
  | fundSize
  | stageStrategies
  | stageStrategyAllocationPct (index : ℕ)
  | stageStrategyCheckCount (index : ℕ)
  | stageStrategyAvgInitialCheck (index : ℕ)
  | stageStrategyOwnership (index : ℕ)
  | stageStrategyReserveRatio (index : ℕ)
  | feeManagementFeeRate
  | feeCarryRate
  | feeHurdleRate
  | feeGpCommitment
  | graduationMatrixRow (fromStage : FundStage)
  | investmentPeriodQuarters
  | fundLifeQuarters
deriving DecidableEq

/-- ValidationError record; the float-formatted `message` text is omitted,
`suggestion` (a constant string where the source sets one) is kept. -/
structure ValidationError where
  field : VField
  code : VCode
  value : Option ℚ
  suggestion : Option String
deriving DecidableEq

def sugFundSizeSmall : String := "Consider increasing fund size to at least $10M"
def sugAllocationSum : String := "Adjust allocations to sum to exactly 100%"
def sugMgmtFee : String := "Typical management fees are 2-2.5%"
def sugCarry : String := "Standard carry is 20%"
def sugHurdle : String := "Typical hurdle rate is 8%"
def sugGpCommit : String := "Standard GP commitment is 1-2%"
def sugFundLife : String := "Consider reducing fund life to 10-12 years"

/-- The `reduce((sum, s) => sum + s.allocationPct, 0)` fold of the source. -/
def totalAllocation (strategies : List StageStrategy) : ℚ :=
  strategies.foldl (fun sum s => sum + s.allocationPct) 0

/-- Fund size block of validateFundInputs. The JS guard
`!inputs.fundSize || inputs.fundSize <= 0` collapses to `fundSize ≤ 0` over ℚ
(0 is the only falsy rational). -/
def fundSizeErrors (inputs : EnhancedFundInputs) : List ValidationError :=
  if inputs.fundSize ≤ 0 then
    [⟨.fundSize, .invalidFundSize, some inputs.fundSize, none⟩]
  else if inputs.fundSize < 10000000 then
    [⟨.fundSize, .fundSizeTooSmall, some inputs.fundSize, some sugFundSizeSmall⟩]
  else if 10000000000 < inputs.fundSize then
    [⟨.fundSize, .fundSizeTooLarge, some inputs.fundSize, none⟩]
  else []

/-- ValidationService.validateStageStrategy. -/
def validateStageStrategy (strategy : StageStrategy) (index : ℕ) : List ValidationError :=
  (if strategy.allocationPct < 0 ∨ 1 < strategy.allocationPct then
    [⟨.stageStrategyAllocationPct index, .invalidAllocationPct, some strategy.allocationPct, none⟩]
  else [])
  ++ (if strategy.checkCount ≤ 0 ∨ 100 < strategy.checkCount then
    [⟨.stageStrategyCheckCount index, .invalidCheckCount, some strategy.checkCount, none⟩]
  else [])
  ++ (if strategy.avgInitialCheck ≤ 0 then
    [⟨.stageStrategyAvgInitialCheck index, .invalidCheckSize, some strategy.avgInitialCheck, none⟩]
  else [])
  ++ (if strategy.ownership < 0 ∨ 1/2 < strategy.ownership then
    [⟨.stageStrategyOwnership index, .invalidOwnership, some strategy.ownership, none⟩]
  else [])
  ++ (if strategy.reserveRatio < 0 ∨ 3 < strategy.reserveRatio then
    [⟨.stageStrategyReserveRatio index, .invalidReserveRatio, some strategy.reserveRatio, none⟩]
  else [])

/-- Stage strategies block of validateFundInputs (allocation-sum check, then
per-strategy checks in index order). -/
def stageStrategyErrors (inputs : EnhancedFundInputs) : List ValidationError :=
  if inputs.stageStrategies = [] then
    [⟨.stageStrategies, .missingStageStrategies, none, none⟩]
  else
    (if 1/1000 < |totalAllocation inputs.stageStrategies - 1| then
      [⟨.stageStrategies, .invalidAllocationSum,
        some (totalAllocation inputs.stageStrategies), some sugAllocationSum⟩]
    else [])
    ++ (inputs.stageStrategies.enum.map fun p => validateStageStrategy p.2 p.1).flatten

/-- ValidationService.validateFeeProfile. The JS truthiness guard
`feeProfile.hurdleRate && ...` skips the hurdle check when the rate is 0. -/
def validateFeeProfile (feeProfile : FeeProfile) : List ValidationError :=
  (if feeProfile.managementFeeRate < 0 ∨ 1/20 < feeProfile.managementFeeRate then
    [⟨.feeManagementFeeRate, .invalidMgmtFee, some feeProfile.managementFeeRate, some sugMgmtFee⟩]
  else [])
  ++ (if feeProfile.carryRate < 0 ∨ 3/10 < feeProfile.carryRate then
    [⟨.feeCarryRate, .invalidCarry, some feeProfile.carryRate, some sugCarry⟩]
  else [])
  ++ (if feeProfile.hurdleRate ≠ 0 ∧ (feeProfile.hurdleRate < 0 ∨ 3/20 < feeProfile.hurdleRate) then
    [⟨.feeHurdleRate, .invalidHurdle, some feeProfile.hurdleRate, some sugHurdle⟩]
  else [])
  ++ (if feeProfile.gpCommitment < 0 ∨ 1/10 < feeProfile.gpCommitment then
    [⟨.feeGpCommitment, .invalidGpCommit, some feeProfile.gpCommitment, some sugGpCommit⟩]
  else [])

/-- The `Object.values(graduations).reduce((sum, rate) => sum + rate, 0)` fold. -/
def rowTotal (row : List (FundStage × ℚ)) : ℚ :=
  row.foldl (fun sum p => sum + p.2) 0

/-- ValidationService.validateGraduationMatrix. -/
def validateGraduationMatrix (matrix : GraduationMatrix) : List ValidationError :=
  (matrix.map fun entry =>
    if 1 < rowTotal entry.2 then
      [⟨.graduationMatrixRow entry.1, .excessiveGraduation, some (rowTotal entry.2), none⟩]
    else []).flatten

/-- Timeline block of validateFundInputs
(`investmentPeriodQuarters > fundLifeQuarters`). -/
def timelineErrors (inputs : EnhancedFundInputs) : List ValidationError :=
  if inputs.fundLifeQuarters < inputs.investmentPeriodQuarters then
    [⟨.investmentPeriodQuarters, .invalidTimeline, some inputs.investmentPeriodQuarters, none⟩]
  else []

/-- Fund life block of validateFundInputs (`fundLifeQuarters > 60`). -/
def fundLifeErrors (inputs : EnhancedFundInputs) : List ValidationError :=
  if 60 < inputs.fundLifeQuarters then
    [⟨.fundLifeQuarters, .excessiveFundLife, some inputs.fundLifeQuarters, some sugFundLife⟩]
  else []

/-- ValidationService.validateFundInputs: every block appends onto the single
`errors` array, in source order. -/
def validateFundInputs (inputs : EnhancedFundInputs) : List ValidationError :=
  fundSizeErrors inputs
  ++ stageStrategyErrors inputs
  ++ validateFeeProfile inputs.feeProfile
  ++ validateGraduationMatrix inputs.graduationMatrix
  ++ timelineErrors inputs
  ++ fundLifeErrors inputs

/-! ## Calculation context (src/context/fund-calculation.context.tsx) -/

/-- CalculationState: the provider's React state. `lastCalculatedAt` (a Date)
and the analytics cache are omitted: wall clock, and not claim-bearing. -/
structure CalculationState where
  forecastResult : Option ForecastResult
  isCalculating : Bool
  calculationProgress : ℚ
  validationErrors : List ValidationError
deriving DecidableEq

/-- The two exception kinds calculateForecast can surface: the
`ValidationError` thrown before simulation (carrying the structured error
list) and a rethrown simulation failure (carrying its message). -/
inductive ForecastFailure
  | validationFailure (errors : List ValidationError)
  | calculationFailure (msg : String)
deriving DecidableEq

/-- FundCalculationProvider.calculateForecast. The simulation
`buildEnhancedFundForecast` is not part of src/, so it is a parameter `sim`
(a fallible function); the cosmetic setInterval progress ticker is abstracted
(only the final progress values 100 and 0 are observable in the state).
Returns the new state and either the forecast or the thrown failure. -/
def calculateForecast (sim : EnhancedFundInputs → Except String ForecastResult)
    (st : CalculationState) (inputs : EnhancedFundInputs) :
    CalculationState × Except ForecastFailure ForecastResult :=
  if validateFundInputs inputs ≠ [] then
    ({ st with validationErrors := validateFundInputs inputs },
     .error (.validationFailure (validateFundInputs inputs)))
  else
    match sim inputs with
    | .ok result =>
        ({ st with forecastResult := some result, isCalculating := false,
                   calculationProgress := 100, validationErrors := [] }, .ok result)
    | .error msg =>
        ({ st with isCalculating := false, calculationProgress := 0,
                   validationErrors := [] },
         .error (.calculationFailure msg))

/-! ## Scenario types and batch runner (src/services/batch-runner.service.ts) -/

inductive ScenarioCategory
  | base | upside | downside | stress | custom
deriving DecidableEq

structure TimingAdjustments where
  deploymentAcceleration : Option ℚ
  exitAcceleration : Option ℚ
deriving DecidableEq

structure ParameterOverrides where
  fundSize : Option ℚ
  stageAllocations : Option (List (FundStage × ℚ))
  exitProbabilities : Option PartialExitProbabilityMatrix
  exitMultiples : Option (List (FundStage × PartialExitMultiples))
  feeAdjustments : Option PartialFeeProfile
  timingAdjustments : Option TimingAdjustments
deriving DecidableEq

/-- ScenarioDefinition; the uuid string id is abstracted to ℕ; the optional
`isBaseline?: boolean` is a Bool (undefined and false are the same falsy). -/
structure ScenarioDefinition where
  id : ℕ
  name : String
  description : String
  category : ScenarioCategory
  parameterOverrides : ParameterOverrides
  weight : Option ℚ
  isBaseline : Bool
deriving DecidableEq

structure VarianceFromBaseline where
  netMoic : ℚ
  netIrr : ℚ
  totalValue : ℚ
deriving DecidableEq

/-- ScenarioResult; `executionTime` (performance.now deltas) omitted
(wall clock). -/
structure ScenarioResult where
  scenarioId : ℕ
  definition : ScenarioDefinition
  result : ForecastResult
  varianceFromBaseline : Option VarianceFromBaseline
  warnings : List String
deriving DecidableEq

/-- The `{...feeProfile, ...adjustments}` object spread. -/
def spreadFeeProfile (f : FeeProfile) (o : PartialFeeProfile) : FeeProfile :=
  { managementFeeRate := o.managementFeeRate.getD f.managementFeeRate
    managementFeeBasis := o.managementFeeBasis.getD f.managementFeeBasis
    carryRate := o.carryRate.getD f.carryRate
    hurdleRate := o.hurdleRate.getD f.hurdleRate
    catchUp := o.catchUp.getD f.catchUp
    catchUpRate := o.catchUpRate.getD f.catchUpRate
    gpCommitment := o.gpCommitment.getD f.gpCommitment
    organizationalExpenses := o.organizationalExpenses.getD f.organizationalExpenses
    fundExpenses := o.fundExpenses.getD f.fundExpenses
    annualExpensesCap := o.annualExpensesCap.orElse fun _ => f.annualExpensesCap }

/-- The `{...matrix, ...overrides.exitProbabilities}` object spread
(per-stage-key overwrite). -/
def spreadExitMatrix (m : ExitProbabilityMatrix) (o : PartialExitProbabilityMatrix) :
    ExitProbabilityMatrix :=
  { preSeed := o.preSeed.getD m.preSeed
    seed := o.seed.getD m.seed
    seriesA := o.seriesA.getD m.seriesA
    seriesB := o.seriesB.getD m.seriesB
    seriesC := o.seriesC.getD m.seriesC
    seriesDPlus := o.seriesDPlus.getD m.seriesDPlus }

/-- JS Math.round (half rounds up). -/
def jsRound (q : ℚ) : ℚ := (⌊q + 1/2⌋ : ℤ)

/-- EnhancedBatchRunner.applyScenarioOverrides, value level: builds the
modified inputs from the base and the scenario's sparse overrides.
The `exitMultiples` override field is declared in the types but never
applied by this function, and the `exitAcceleration` branch is an empty
placeholder in the source. The JS truthiness guard
`if (deploymentAcceleration)` skips the timing update when the factor is 0. -/
def applyScenarioOverrides (baseInputs : EnhancedFundInputs)
    (scenario : ScenarioDefinition) : EnhancedFundInputs :=
  let modified := baseInputs
  let modified := match scenario.parameterOverrides.fundSize with
    | some v => { modified with fundSize := v }
    | none => modified
  let modified := match scenario.parameterOverrides.stageAllocations with
    | some allocs =>
        { modified with stageStrategies := modified.stageStrategies.map fun strategy =>
            match allocs.lookup strategy.stage with
            | some a => { strategy with allocationPct := a }
            | none => strategy }
    | none => modified
  let modified := match scenario.parameterOverrides.exitProbabilities with
    | some ov =>
        { modified with exitProbabilityMatrix :=
            spreadExitMatrix modified.exitProbabilityMatrix ov }
    | none => modified
  let modified := match scenario.parameterOverrides.feeAdjustments with
    | some adj =>
        { modified with feeProfile := spreadFeeProfile modified.feeProfile adj }
    | none => modified
  let modified := match scenario.parameterOverrides.timingAdjustments with
    | some t =>
        match t.deploymentAcceleration with
        | some d =>
            if d ≠ 0 then
              { modified with investmentPeriodQuarters := (jsRound
                  (modified.investmentPeriodQuarters * (1 - d * (1/5)))) }
            else modified
        | none => modified
    | none => modified
  modified

def errorResultName : String := "Error"
def errorResultId : String := "error"
def errorResultVersion : String := "1.0.0"

/-- EnhancedBatchRunner.createErrorResult: the neutral placeholder forecast
for a failed scenario, field for field as in the source (clock-derived
`calculationDate` and `vintage` omitted, see the conventions above). -/
def createErrorResult (msg : String) : ForecastResult :=
  { calculationId := errorResultId
    fundName := errorResultName
    timeline := []
    portfolio := []
    companyResults := []
    waterfallSummary :=
      { type := .american
        totalInvested := 0
        totalProceeds := 0
        totalProfit := 0
        lpCapitalReturned := 0
        lpPreferredReturn := 0
        lpProfitDistribution := 0
        totalLpDistribution := 0
        gpManagementFees := 0
        gpCarriedInterest := 0
        gpCatchUp := 0
        totalGpCompensation := 0
        lpNetMultiple := 0
        lpNetIrr := 0
        effectiveCarryRate := 0
        dealWaterfalls := none }
    totalInvested := 0
    totalRealized := 0
    totalUnrealized := 0
    totalValue := 0
    totalManagementFees := 0
    totalCarriedInterest := 0
    totalOrganizationalExpenses := 0
    totalFundExpenses := 0
    grossMoic := 0
    netMoic := 0
    grossIrr := 0
    netIrr := 0
    tvpi := 0
    dpi := 0
    rvpi := 0
    portfolioComposition :=
      { byStage := []
        byStatus := { active := 0, exited := 0, writtenOff := 0 }
        bySector := none
        byGeography := none }
    riskMetrics :=
      { jCurveDepth := 0
        timeToBreakeven := 0
        lossRatio := 0
        concentrationRisk := 0
        diversificationScore := 0 }
    warnings := [{ type := .calculation, severity := .error, message := msg,
                   field := none, suggestion := none }]
    assumptions :=
      { version := errorResultVersion
        methodology := .deterministic
        randomSeed := none
        marketAssumptions :=
          { riskFreeRate := 1/25, marketPremium := 2/25, betaByStage := [] }
        operationalAssumptions :=
          { defaultFollowOnReserveRatio := 1/2
            defaultOwnershipTarget := 1/10
            defaultBoardSeatThreshold := 1/10 }
        calculationParameters :=
          { irMaxIterations := 100
            irTolerance := 1/1000000
            navDiscountRate := 1/10 } } }

/-- EnhancedBatchRunner: the runner object. `useWebWorkers` is initialised to
`true` in the source and never written; `maxWorkers`
(`navigator.hardwareConcurrency || 4`) is environment input. -/
structure EnhancedBatchRunner where
  scenarios : List ScenarioDefinition
  baseInputs : EnhancedFundInputs
  useWebWorkers : Bool
  maxWorkers : ℚ
deriving DecidableEq

/-- One iteration of the sequential for-loop of run: try the forecast on the
scenario's modified inputs; on a thrown error push an error ScenarioResult
whose warnings list holds the error message. -/
def runScenarioStep (sim : EnhancedFundInputs → Except String ForecastResult)
    (baseInputs : EnhancedFundInputs) (scenario : ScenarioDefinition) : ScenarioResult :=
  match sim (applyScenarioOverrides baseInputs scenario) with
  | .ok result =>
      { scenarioId := scenario.id, definition := scenario, result := result,
        varianceFromBaseline := none, warnings := [] }
  | .error msg =>
      { scenarioId := scenario.id, definition := scenario,
        result := createErrorResult msg,
        varianceFromBaseline := none, warnings := [msg] }

/-- The sequence of `onProgress((completed / totalScenarios) * 100)` calls of
a sequential run, in call order. -/
def progressReports (n : ℕ) : List ℚ :=
  (List.range n).map fun (i : ℕ) => (((i : ℚ) + 1) / (n : ℚ)) * 100

/-- The variance-from-baseline pass at the end of run: find the first result
flagged isBaseline; every result with a different scenarioId gets a
varianceFromBaseline record of exact metric differences. -/
def applyBaselineVariance (results : List ScenarioResult) : List ScenarioResult :=
  match results.find? (fun r => r.definition.isBaseline) with
  | none => results
  | some baseline =>
      results.map fun r =>
        if r.scenarioId ≠ baseline.scenarioId then
          { r with varianceFromBaseline := some {
                netMoic := r.result.netMoic - baseline.result.netMoic
                netIrr := r.result.netIrr - baseline.result.netIrr
                totalValue := r.result.totalValue - baseline.result.totalValue } }
        else r

/-- The sequential body of EnhancedBatchRunner.run (the part after the
web-worker dispatch): the results after the variance pass, paired with the
list of progress percentages reported to onProgress. -/
def runSequential (sim : EnhancedFundInputs → Except String ForecastResult)
    (runner : EnhancedBatchRunner) : List ScenarioResult × List ℚ :=
  (applyBaselineVariance (runner.scenarios.map (runScenarioStep sim runner.baseInputs)),
   progressReports runner.scenarios.length)

/-- EnhancedBatchRunner.run with an explicit fuel (call-depth) bound.
The source dispatches to runWithWebWorkers when
`useWebWorkers && totalScenarios > 5`, and runWithWebWorkers in turn is
`return this.run(onProgress)` — an unconditional mutual recursion, modelled
here by re-entering `run` with one unit of fuel consumed. `none` at every
fuel value means the call never returns. -/
def run (sim : EnhancedFundInputs → Except String ForecastResult) :
    ℕ → EnhancedBatchRunner → Option (List ScenarioResult × List ℚ)
  | 0, _ => none
  | fuel + 1, runner =>
      if runner.useWebWorkers = true ∧ 5 < runner.scenarios.length then
        run sim fuel runner
      else
        some (runSequential sim runner)

/-- EnhancedBatchRunner.runWithWebWorkers: its whole body is
`return this.run(onProgress)`. -/
def runWithWebWorkers (sim : EnhancedFundInputs → Except String ForecastResult)
    (fuel : ℕ) (runner : EnhancedBatchRunner) : Option (List ScenarioResult × List ℚ) :=
  run sim fuel runner

/-- The proposition that a batch run never returns at any call depth. -/
def runNeverReturns (sim : EnhancedFundInputs → Except String ForecastResult)
    (runner : EnhancedBatchRunner) : Prop :=
  ∀ fuel, run sim fuel runner = none

/-! ## The standalone mock forecast
(src/split-context-architecture.ts, FundProvider.calculateForecast) -/

structure MockTimelinePoint where
  quarter : ℚ
  nav : ℚ
  dpi : ℚ
  tvpi : ℚ
  deployed : ℚ
deriving DecidableEq

/-- The standalone file declares its own, different ForecastResult interface;
renamed here to avoid the clash with the enhanced-types record. -/
structure MockForecastResult where
  grossMoic : ℚ
  netMoic : ℚ
  grossIrr : ℚ
  netIrr : ℚ
  tvpi : ℚ
  dpi : ℚ
  rvpi : ℚ
  totalInvested : ℚ
  totalValue : ℚ
  timeline : List MockTimelinePoint
deriving DecidableEq

/-- The mock FundProvider.calculateForecast result. `Math.random()` is an
unseeded environment source: its i-th draw is the parameter `rand i`
(each draw lies in [0,1)). `Math.exp(-i/10)` and `Math.exp(-i/8)` are
transcendental float evaluations, abstracted as the streams `exp10` and
`exp8`; the only value the theorems use is `Math.exp(0) = 1`, which is
exact in JS. -/
def mockCalculateForecast (fundSize : ℚ) (rand exp10 exp8 : ℕ → ℚ) :
    MockForecastResult :=
  { grossMoic := 3.2
    netMoic := 2.5
    grossIrr := 0.28
    netIrr := 0.22
    tvpi := 2.8
    dpi := 0.9
    rvpi := 1.9
    totalInvested := fundSize * (85/100)
    totalValue := fundSize * (5/2)
    timeline := (List.range 40).map fun (i : ℕ) =>
      { quarter := (i : ℚ) + 1
        nav := max 0 (fundSize * (1 - exp10 i + rand i * (3/10)))
        dpi := min (3/2) ((i : ℚ) * (1/25))
        tvpi := min 3 (1 + (i : ℚ) * (1/20))
        deployed := min (fundSize * (85/100))
                        (fundSize * (85/100) * (1 - exp8 i)) } }

/-! ## Reference-level model of the batch runner for the frame claim

JS objects are mutable references. To state "the engine never mutates the
caller-supplied configuration" non-vacuously, the nested objects of the
configuration (the strategies array, fee profile, matrices) are placed in an
explicit heap and the inputs record holds references into it, mirroring which
objects `{ ...baseInputs }` shares between the base and the copy. The
embedded applyScenarioOverrides then shows exactly which heap cells each
source statement writes: it only ever allocates fresh cells (`.map` builds a
new array, object spreads build new objects) and repoints fields of the
copied record. -/

abbrev Ref := ℕ

inductive HeapObj
  | strategies (l : List StageStrategy)
  | fees (f : FeeProfile)
  | exitProbs (m : ExitProbabilityMatrix)
  | gradMatrix (g : GraduationMatrix)
  | exitMults (m : ExitMultiplesMatrix)
deriving DecidableEq

abbrev Heap := List HeapObj

def Heap.read (h : Heap) (r : Ref) : Option HeapObj := h[r]?

def Heap.alloc (h : Heap) (o : HeapObj) : Heap × Ref := (h ++ [o], h.length)

/-- Heap extension: every cell of the old heap reads the same in the new one. -/
def Heap.Extends (h hbig : Heap) : Prop :=
  h.length ≤ hbig.length ∧ ∀ r, r < h.length → hbig.read r = h.read r

/-- EnhancedFundInputs at the reference level: scalar fields inline, nested
objects by reference. -/
structure FundInputsRef where
  fundName : String
  fundSize : ℚ
  currency : Currency
  vintage : ℚ
  feeProfile : Ref
  stageStrategies : Ref
  graduationMatrix : Ref
  exitProbabilityMatrix : Ref
  exitMultiples : Ref
  investmentPeriodQuarters : ℚ
  fundLifeQuarters : ℚ
  waterfallType : WaterfallType
  lpClawback : Bool
deriving DecidableEq

/-- Dereference a configuration into the value-level record (`none` on a
dangling or ill-typed reference, which cannot happen in a well-formed run).
Used to state that every field of the baseline inputs is unchanged. -/
def materialize (h : Heap) (i : FundInputsRef) : Option EnhancedFundInputs :=
  match h.read i.stageStrategies, h.read i.feeProfile, h.read i.graduationMatrix,
        h.read i.exitProbabilityMatrix, h.read i.exitMultiples with
  | some (.strategies l), some (.fees f), some (.gradMatrix g),
    some (.exitProbs m), some (.exitMults em) =>
      some { fundName := i.fundName, fundSize := i.fundSize,
             currency := i.currency, vintage := i.vintage,
             feeProfile := f, stageStrategies := l, graduationMatrix := g,
             exitProbabilityMatrix := m, exitMultiples := em,
             investmentPeriodQuarters := i.investmentPeriodQuarters,
             fundLifeQuarters := i.fundLifeQuarters,
             waterfallType := i.waterfallType, lpClawback := i.lpClawback }
  | _, _, _, _, _ => none

/-- Source block `if (overrides.fundSize !== undefined)`: a scalar write on
the copied record. -/
def applyFundSizeOverride (o : Option ℚ) (p : Heap × FundInputsRef) :
    Heap × FundInputsRef :=
  match o with
  | some v => (p.1, { p.2 with fundSize := v })
  | none => p

/-- Source block `if (overrides.stageAllocations)`: `.map` over the shared
strategies array builds a NEW array (fresh cell); the copied record is
repointed at it. -/
def applyStageAllocOverride (o : Option (List (FundStage × ℚ)))
    (p : Heap × FundInputsRef) : Option (Heap × FundInputsRef) :=
  match o with
  | some allocs =>
      match p.1.read p.2.stageStrategies with
      | some (.strategies l) =>
          let l2 := l.map fun strategy =>
            match allocs.lookup strategy.stage with
            | some a => { strategy with allocationPct := a }
            | none => strategy
          let ar := p.1.alloc (.strategies l2)
          some (ar.1, { p.2 with stageStrategies := ar.2 })
      | _ => none
  | none => some p

/-- Source block `if (overrides.exitProbabilities)`: object spread builds a
new matrix object (fresh cell). -/
def applyExitProbsOverride (o : Option PartialExitProbabilityMatrix)
    (p : Heap × FundInputsRef) : Option (Heap × FundInputsRef) :=
  match o with
  | some ov =>
      match p.1.read p.2.exitProbabilityMatrix with
      | some (.exitProbs m) =>
          let ar := p.1.alloc (.exitProbs (spreadExitMatrix m ov))
          some (ar.1, { p.2 with exitProbabilityMatrix := ar.2 })
      | _ => none
  | none => some p

/-- Source block `if (overrides.feeAdjustments)`: object spread builds a new
fee profile (fresh cell). -/
def applyFeeAdjustOverride (o : Option PartialFeeProfile)
    (p : Heap × FundInputsRef) : Option (Heap × FundInputsRef) :=
  match o with
  | some adj =>
      match p.1.read p.2.feeProfile with
      | some (.fees f) =>
          let ar := p.1.alloc (.fees (spreadFeeProfile f adj))
          some (ar.1, { p.2 with feeProfile := ar.2 })
      | _ => none
  | none => some p

/-- Source block `if (overrides.timingAdjustments)`: a scalar write on the
copied record (guarded by JS truthiness of the factor). -/
def applyTimingOverride (o : Option TimingAdjustments) (p : Heap × FundInputsRef) :
    Heap × FundInputsRef :=
  match o with
  | some t =>
      match t.deploymentAcceleration with
      | some d =>
          if d ≠ 0 then
            (p.1, { p.2 with investmentPeriodQuarters := (jsRound
                      (p.2.investmentPeriodQuarters * (1 - d * (1/5)))) })
          else p
      | none => p
  | none => p

/-- EnhancedBatchRunner.applyScenarioOverrides at the reference level:
`const modified = { ...baseInputs }` is the shallow copy (same reference
fields), then the five override blocks in source order. -/
def applyScenarioOverridesH (h : Heap) (baseInputs : FundInputsRef)
    (scenario : ScenarioDefinition) : Option (Heap × FundInputsRef) := do
  let p := (h, baseInputs)
  let p := applyFundSizeOverride scenario.parameterOverrides.fundSize p
  let p ← applyStageAllocOverride scenario.parameterOverrides.stageAllocations p
  let p ← applyExitProbsOverride scenario.parameterOverrides.exitProbabilities p
  let p ← applyFeeAdjustOverride scenario.parameterOverrides.feeAdjustments p
  return applyTimingOverride scenario.parameterOverrides.timingAdjustments p

/-- Modelled from the spec: `buildEnhancedFundForecast` (shared/enhanced-fund-model)
is not among the source files; per spec section 5 a forecast computation "is a
synchronous, side-effect-free function over an immutable configuration", so the
simulation is any pure function of the heap and the (referenced) inputs — as a
Lean function it can read the heap but never write it. -/
abbrev SimH := Heap → FundInputsRef → Except String ForecastResult

/-- The sequential for-loop of run at the reference level, threading the heap
through each scenario's applyScenarioOverrides and forecast. -/
def runScenarioListH (sim : SimH) : Heap → FundInputsRef → List ScenarioDefinition →
    Option (Heap × List ScenarioResult)
  | h, _, [] => some (h, [])
  | h, base, scenario :: rest =>
      match applyScenarioOverridesH h base scenario with
      | none => none
      | some (h2, modified) =>
          let res := match sim h2 modified with
            | .ok result =>
                ({ scenarioId := scenario.id, definition := scenario,
                   result := result, varianceFromBaseline := none,
                   warnings := [] } : ScenarioResult)
            | .error msg =>
                { scenarioId := scenario.id, definition := scenario,
                  result := createErrorResult msg,
                  varianceFromBaseline := none, warnings := [msg] }
          match runScenarioListH sim h2 base rest with
          | none => none
          | some (h3, results) => some (h3, res :: results)

/-- EnhancedBatchRunner at the reference level. -/
structure EnhancedBatchRunnerH where
  scenarios : List ScenarioDefinition
  baseInputs : FundInputsRef
  useWebWorkers : Bool
  maxWorkers : ℚ
deriving DecidableEq

/-- EnhancedBatchRunner.run at the reference level, with the same fuel-bounded
web-worker dispatch as `run` and the variance pass (which touches no heap
cell) at the end. -/
def runH (sim : SimH) : ℕ → Heap → EnhancedBatchRunnerH →
    Option (Heap × List ScenarioResult × List ℚ)
  | 0, _, _ => none
  | fuel + 1, h, runner =>
      if runner.useWebWorkers = true ∧ 5 < runner.scenarios.length then
        runH sim fuel h runner
      else
        match runScenarioListH sim h runner.baseInputs runner.scenarios with
        | none => none
        | some (h2, results) =>
            some (h2, applyBaselineVariance results,
                  progressReports runner.scenarios.length)

/-! ## Concrete instances (used by witnesses and counterexamples)

`cfgBase` is the repository's own default configuration: field values are
those of `getDefaultState()` and `getInputs()` in
src/context/fund-data.context.tsx. -/

def baseFundName : String := "New Fund"

def cfgBase : EnhancedFundInputs :=
  { fundName := baseFundName
    fundSize := 100000000
    currency := .usd
    vintage := 2024
    feeProfile :=
      { managementFeeRate := 1/50
        managementFeeBasis := .committed
        carryRate := 1/5
        hurdleRate := 2/25
        catchUp := true
        catchUpRate := 1
        gpCommitment := 1/50
        organizationalExpenses := 500000
        fundExpenses := 200000
        annualExpensesCap := some 100000 }
    stageStrategies :=
      [ { stage := .preSeed, allocationPct := 3/20, checkCount := 20,
          avgInitialCheck := 500000, ownership := 7/100, reserveRatio := 1,
          targetReturns := ⟨3, 10, 50⟩ },
        { stage := .seed, allocationPct := 7/20, checkCount := 25,
          avgInitialCheck := 1500000, ownership := 1/10, reserveRatio := 4/5,
          targetReturns := ⟨5/2, 8, 30⟩ },
        { stage := .seriesA, allocationPct := 1/2, checkCount := 15,
          avgInitialCheck := 3000000, ownership := 2/25, reserveRatio := 1/2,
          targetReturns := ⟨2, 5, 15⟩ } ]
    graduationMatrix :=
      [ (.preSeed, [(.seed, 13/20)]),
        (.seed, [(.seriesA, 3/5)]),
        (.seriesA, [(.seriesB, 11/20)]),
        (.seriesB, [(.seriesC, 1/2)]),
        (.seriesC, [(.seriesDPlus, 9/20)]) ]
    exitProbabilityMatrix :=
      { preSeed := ⟨9/10, 3/50, 1/50, 1/100, 1/100⟩
        seed := ⟨4/5, 1/10, 1/20, 3/100, 1/50⟩
        seriesA := ⟨13/20, 3/20, 1/10, 7/100, 3/100⟩
        seriesB := ⟨1/2, 1/5, 3/20, 1/10, 1/20⟩
        seriesC := ⟨7/20, 1/4, 1/5, 3/20, 1/20⟩
        seriesDPlus := ⟨1/10, 1/5, 3/10, 1/4, 3/20⟩ }
    exitMultiples :=
      { preSeed := ⟨0, 3, 10, 50, 100⟩
        seed := ⟨0, 5/2, 8, 30, 75⟩
        seriesA := ⟨0, 2, 5, 15, 50⟩
        seriesB := ⟨0, 3/2, 3, 10, 30⟩
        seriesC := ⟨0, 5/4, 5/2, 7, 20⟩
        seriesDPlus := ⟨0, 1, 2, 5, 15⟩ }
    investmentPeriodQuarters := 20
    fundLifeQuarters := 40
    waterfallType := .american
    lpClawback := true }

def cfg5M : EnhancedFundInputs := { cfgBase with fundSize := 5000000 }

def cfgNeg : EnhancedFundInputs := { cfgBase with fundSize := -1 }

def cfgLife61 : EnhancedFundInputs := { cfgBase with fundLifeQuarters := 61 }

def state0 : CalculationState :=
  { forecastResult := none, isCalculating := false, calculationProgress := 0,
    validationErrors := [] }

def okStubMsg : String := "stub forecast"
def failStubMsg : String := "Scenario calculation failed"

/-- A simulation stand-in that always succeeds (its value is irrelevant to
the guarded paths it is used on). -/
def simOk : EnhancedFundInputs → Except String ForecastResult :=
  fun _ => .ok (createErrorResult okStubMsg)

/-- A simulation stand-in that always throws. -/
def simFail : EnhancedFundInputs → Except String ForecastResult :=
  fun _ => .error failStubMsg

def noOverrides : ParameterOverrides :=
  { fundSize := none, stageAllocations := none, exitProbabilities := none,
    exitMultiples := none, feeAdjustments := none, timingAdjustments := none }

def scenarioLabel : String := "scenario"

def plainScenario (i : ℕ) (baseline : Bool) : ScenarioDefinition :=
  { id := i, name := scenarioLabel, description := scenarioLabel,
    category := .custom, parameterOverrides := noOverrides, weight := none,
    isBaseline := baseline }

/-- Six scenarios, the second flagged baseline: a batch large enough to take
the web-worker dispatch (useWebWorkers defaults to true in the source). -/
def sixScenarios : List ScenarioDefinition :=
  [ plainScenario 1 false, plainScenario 2 true, plainScenario 3 false,
    plainScenario 4 false, plainScenario 5 false, plainScenario 6 false ]

def runnerSix : EnhancedBatchRunner :=
  { scenarios := sixScenarios, baseInputs := cfgBase, useWebWorkers := true,
    maxWorkers := 4 }

/-- Three scenarios, the second flagged baseline: a small batch that runs
sequentially. -/
def runnerThree : EnhancedBatchRunner :=
  { scenarios := [plainScenario 1 false, plainScenario 2 true, plainScenario 3 false],
    baseInputs := cfgBase, useWebWorkers := true, maxWorkers := 4 }

/-! ## Helper lemmas on the validation blocks -/

theorem any_code_eq_false {l : List ValidationError} {c : VCode}
    (h : ∀ e ∈ l, e.code ≠ c) : (l.any fun e => e.code == c) = false := by
  rw [List.any_eq_false]
  intro e he
  simpa using h e he

theorem code_of_mem_fundSizeErrors {e : ValidationError} {inputs : EnhancedFundInputs}
    (h : e ∈ fundSizeErrors inputs) :
    e.code = .invalidFundSize ∨ e.code = .fundSizeTooSmall ∨ e.code = .fundSizeTooLarge := by
  unfold fundSizeErrors at h
  split_ifs at h <;> simp_all

theorem code_of_mem_validateStageStrategy {e : ValidationError} {s : StageStrategy}
    {i : ℕ} (h : e ∈ validateStageStrategy s i) :
    e.code = .invalidAllocationPct ∨ e.code = .invalidCheckCount ∨
    e.code = .invalidCheckSize ∨ e.code = .invalidOwnership ∨
    e.code = .invalidReserveRatio := by
  unfold validateStageStrategy at h
  split_ifs at h <;> simp_all <;> casesm* _ ∨ _ <;> subst_vars <;> simp

theorem code_of_mem_validateFeeProfile {e : ValidationError} {f : FeeProfile}
    (h : e ∈ validateFeeProfile f) :
    e.code = .invalidMgmtFee ∨ e.code = .invalidCarry ∨ e.code = .invalidHurdle ∨
    e.code = .invalidGpCommit := by
  unfold validateFeeProfile at h
  split_ifs at h <;> simp_all <;> casesm* _ ∨ _ <;> subst_vars <;> simp

theorem code_of_mem_validateGraduationMatrix {e : ValidationError} {m : GraduationMatrix}
    (h : e ∈ validateGraduationMatrix m) : e.code = .excessiveGraduation := by
  unfold validateGraduationMatrix at h
  rw [List.mem_flatten] at h
  obtain ⟨l, hl, hel⟩ := h
  rw [List.mem_map] at hl
  obtain ⟨entry, _, rfl⟩ := hl
  split_ifs at hel <;> simp_all

theorem code_of_mem_timelineErrors {e : ValidationError} {inputs : EnhancedFundInputs}
    (h : e ∈ timelineErrors inputs) : e.code = .invalidTimeline := by
  unfold timelineErrors at h
  split_ifs at h <;> simp_all

theorem code_of_mem_fundLifeErrors {e : ValidationError} {inputs : EnhancedFundInputs}
    (h : e ∈ fundLifeErrors inputs) : e.code = .excessiveFundLife := by
  unfold fundLifeErrors at h
  split_ifs at h <;> simp_all

theorem code_of_mem_stageStrategyErrors {e : ValidationError} {inputs : EnhancedFundInputs}
    (h : e ∈ stageStrategyErrors inputs) :
    e.code = .missingStageStrategies ∨ e.code = .invalidAllocationSum ∨
    e.code = .invalidAllocationPct ∨ e.code = .invalidCheckCount ∨
    e.code = .invalidCheckSize ∨ e.code = .invalidOwnership ∨
    e.code = .invalidReserveRatio := by
  unfold stageStrategyErrors at h
  split_ifs at h
  · simp_all
  · rw [List.mem_append] at h
    rcases h with h | h
    · simp_all
    · rw [List.mem_flatten] at h
      obtain ⟨l, hl, hel⟩ := h
      rw [List.mem_map] at hl
      obtain ⟨p, _, rfl⟩ := hl
      rcases code_of_mem_validateStageStrategy hel with h | h | h | h | h <;> simp [h]
  · rw [List.mem_append] at h
    rcases h with h | h
    · simp_all
    · rw [List.mem_flatten] at h
      obtain ⟨l, hl, hel⟩ := h
      rw [List.mem_map] at hl
      obtain ⟨p, _, rfl⟩ := hl
      rcases code_of_mem_validateStageStrategy hel with h | h | h | h | h <;> simp [h]

/-- Association lists backing JS objects have pairwise-distinct keys; two
entries with the same key are the same entry. -/
theorem assoc_key_unique {α β : Type} [DecidableEq α] {l : List (α × β)}
    (hk : (l.map Prod.fst).Nodup) {p q : α × β}
    (hp : p ∈ l) (hq : q ∈ l) (h : p.1 = q.1) : p = q := by
  induction l with
  | nil => cases hp
  | cons a t ih =>
      rw [List.map_cons, List.nodup_cons] at hk
      rcases List.mem_cons.mp hp with rfl | hp2
      · rcases List.mem_cons.mp hq with rfl | hq2
        · rfl
        · exact absurd (h ▸ List.mem_map_of_mem Prod.fst hq2) hk.1
      · rcases List.mem_cons.mp hq with rfl | hq2
        · exact absurd (h ▸ List.mem_map_of_mem Prod.fst hp2) hk.1
        · exact ih hk.2 hp2 hq2

theorem mem_validate_of_mem_fundSize {inputs : EnhancedFundInputs} {e : ValidationError}
    (h : e ∈ fundSizeErrors inputs) : e ∈ validateFundInputs inputs := by
  unfold validateFundInputs
  simp only [List.mem_append]
  tauto

theorem mem_validate_of_mem_fundLife {inputs : EnhancedFundInputs} {e : ValidationError}
    (h : e ∈ fundLifeErrors inputs) : e ∈ validateFundInputs inputs := by
  unfold validateFundInputs
  simp only [List.mem_append]
  tauto

theorem any_validate_of_mem {inputs : EnhancedFundInputs} {e : ValidationError}
    (hm : e ∈ validateFundInputs inputs) {c : VCode} (hc : e.code = c) :
    ((validateFundInputs inputs).any fun x => x.code == c) = true := by
  rw [List.any_eq_true]
  exact ⟨e, hm, by simp [hc]⟩

/-- A configuration whose single stage strategy allocates only 15%:
the allocation sum misses 1 by far more than the 0.001 tolerance. -/
def cfgBadAlloc : EnhancedFundInputs :=
  { cfgBase with stageStrategies := cfgBase.stageStrategies.take 1 }

/-- A graduation matrix with one row whose outgoing rates sum to 1.25. -/
def gradBad : GraduationMatrix :=
  [(.preSeed, [(.seed, 13/20), (.seriesA, 3/5)])]

/-- Claim C7: for every non-empty set of stage strategies, validate emits an
INVALID_ALLOCATION_SUM error if and only if the allocation sum differs from
1.0 by more than 0.001. -/
theorem allocationSum_error_iff (inputs : EnhancedFundInputs)
    (hne : inputs.stageStrategies ≠ []) :
    ((validateFundInputs inputs).any fun e => e.code == VCode.invalidAllocationSum) = true ↔
      1/1000 < |totalAllocation inputs.stageStrategies - 1| := by
  constructor
  · intro h
    rw [List.any_eq_true] at h
    obtain ⟨e, he, hcode⟩ := h
    rw [beq_iff_eq] at hcode
    unfold validateFundInputs at he
    simp only [List.mem_append] at he
    rcases he with ((((he | he) | he) | he) | he) | he
    · rcases code_of_mem_fundSizeErrors he with h | h | h <;> simp_all
    · unfold stageStrategyErrors at he
      rw [if_neg hne, List.mem_append] at he
      rcases he with he | he
      · by_cases hc : 1/1000 < |totalAllocation inputs.stageStrategies - 1|
        · exact hc
        · rw [if_neg hc] at he
          simp at he
      · rw [List.mem_flatten] at he
        obtain ⟨l, hl, hel⟩ := he
        rw [List.mem_map] at hl
        obtain ⟨p, _, rfl⟩ := hl
        rcases code_of_mem_validateStageStrategy hel with h | h | h | h | h <;> simp_all
    · rcases code_of_mem_validateFeeProfile he with h | h | h | h <;> simp_all
    · have := code_of_mem_validateGraduationMatrix he
      simp_all
    · have := code_of_mem_timelineErrors he
      simp_all
    · have := code_of_mem_fundLifeErrors he
      simp_all
  · intro hc
    rw [List.any_eq_true]
    refine ⟨⟨.stageStrategies, .invalidAllocationSum,
      some (totalAllocation inputs.stageStrategies), some sugAllocationSum⟩, ?_, by simp⟩
    unfold validateFundInputs
    simp only [List.mem_append]
    left; left; left; left; right
    unfold stageStrategyErrors
    rw [if_neg hne, List.mem_append]
    left
    rw [if_pos hc]
    simp

/-- Claim C7 witness: a single-strategy configuration allocating 15% trips
INVALID_ALLOCATION_SUM. -/
theorem allocationSum_error_iff_witness :
    cfgBadAlloc.stageStrategies ≠ [] ∧
    (((validateFundInputs cfgBadAlloc).any
        fun e => e.code == VCode.invalidAllocationSum) = true ↔
      1/1000 < |totalAllocation cfgBadAlloc.stageStrategies - 1|) :=
  ⟨by simp [cfgBadAlloc, cfgBase], allocationSum_error_iff cfgBadAlloc (by simp [cfgBadAlloc, cfgBase])⟩

/-- Claim C8: for every row of the graduation matrix, validate emits an
EXCESSIVE_GRADUATION error for that row's stage if and only if the row's
outgoing rates sum to more than 1.0. -/
theorem graduation_row_error_iff (m : GraduationMatrix) (s : FundStage)
    (row : List (FundStage × ℚ)) (hmem : (s, row) ∈ m)
    (hkeys : (m.map Prod.fst).Nodup) :
    ((validateGraduationMatrix m).any fun e =>
        e.field == VField.graduationMatrixRow s && e.code == VCode.excessiveGraduation) = true ↔
      1 < rowTotal row := by
  constructor
  · intro h
    rw [List.any_eq_true] at h
    obtain ⟨e, he, hfc⟩ := h
    rw [Bool.and_eq_true, beq_iff_eq, beq_iff_eq] at hfc
    unfold validateGraduationMatrix at he
    rw [List.mem_flatten] at he
    obtain ⟨l, hl, hel⟩ := he
    rw [List.mem_map] at hl
    obtain ⟨entry, hentry, rfl⟩ := hl
    by_cases hc : 1 < rowTotal entry.2
    · rw [if_pos hc] at hel
      simp only [List.mem_singleton] at hel
      subst hel
      have hkey : entry.1 = s := by
        have := hfc.1
        simpa using this
      have : entry = (s, row) := assoc_key_unique hkeys hentry hmem (by simpa using hkey)
      rw [this] at hc
      exact hc
    · rw [if_neg hc] at hel
      simp at hel
  · intro hc
    rw [List.any_eq_true]
    refine ⟨⟨.graduationMatrixRow s, .excessiveGraduation, some (rowTotal row), none⟩, ?_, by simp⟩
    unfold validateGraduationMatrix
    rw [List.mem_flatten]
    refine ⟨_, List.mem_map_of_mem _ hmem, ?_⟩
    rw [if_pos hc]
    simp

/-- Claim C8 witness: a matrix with a 125% outgoing row trips
EXCESSIVE_GRADUATION for its stage. -/
theorem graduation_row_error_iff_witness :
    ((FundStage.preSeed, [(FundStage.seed, (13:ℚ)/20), (FundStage.seriesA, 3/5)]) ∈ gradBad) ∧
    (gradBad.map Prod.fst).Nodup ∧
    (((validateGraduationMatrix gradBad).any fun e =>
        e.field == VField.graduationMatrixRow .preSeed &&
          e.code == VCode.excessiveGraduation) = true ↔
      1 < rowTotal [(FundStage.seed, (13:ℚ)/20), (FundStage.seriesA, 3/5)]) :=
  ⟨by simp [gradBad], by simp [gradBad],
   graduation_row_error_iff gradBad .preSeed _ (by simp [gradBad]) (by simp [gradBad])⟩

/-- The three fund-size codes are emitted only by the fund-size block. -/
theorem fundSize_codes_only {e : ValidationError} {inputs : EnhancedFundInputs}
    (h : e ∈ validateFundInputs inputs)
    (hc : e.code = .invalidFundSize ∨ e.code = .fundSizeTooSmall ∨
          e.code = .fundSizeTooLarge) :
    e ∈ fundSizeErrors inputs := by
  unfold validateFundInputs at h
  simp only [List.mem_append] at h
  rcases h with ((((h | h) | h) | h) | h) | h
  · exact h
  · rcases code_of_mem_stageStrategyErrors h with h2 | h2 | h2 | h2 | h2 | h2 | h2 <;>
      simp_all
  · rcases code_of_mem_validateFeeProfile h with h2 | h2 | h2 | h2 <;> simp_all
  · have := code_of_mem_validateGraduationMatrix h
    simp_all
  · have := code_of_mem_timelineErrors h
    simp_all
  · have := code_of_mem_fundLifeErrors h
    simp_all

/-- Claim C2 counterexample: with every other input at the repository's own
defaults, fundSize = 5,000,000 puts a FUND_SIZE_TOO_SMALL entry into the
single blocking ValidationError list (there is no separate warning list for
it), and calculateForecast therefore throws instead of simulating — the
claimed "non-blocking warning only, no blocking error" is false. -/
theorem fundSize5M_blocks :
    ((validateFundInputs cfg5M).any fun e => e.code == VCode.fundSizeTooSmall) = true ∧
    validateFundInputs cfg5M ≠ [] ∧
    (calculateForecast simOk state0 cfg5M).2 =
      .error (.validationFailure (validateFundInputs cfg5M)) := by
  have hmem : (⟨.fundSize, .fundSizeTooSmall, some 5000000, some sugFundSizeSmall⟩ :
      ValidationError) ∈ fundSizeErrors cfg5M := by
    unfold fundSizeErrors
    rw [if_neg (by norm_num [cfg5M, cfgBase]), if_pos (by norm_num [cfg5M, cfgBase])]
    simp [cfg5M, cfgBase]
  have hmem2 := mem_validate_of_mem_fundSize hmem
  have hne : validateFundInputs cfg5M ≠ [] := List.ne_nil_of_mem hmem2
  refine ⟨any_validate_of_mem hmem2 rfl, hne, ?_⟩
  unfold calculateForecast
  rw [if_pos hne]

/-- Claim C2 (amended): fundSize = -1 yields a blocking INVALID_FUND_SIZE
error; fundSize = 5,000,000 yields a FUND_SIZE_TOO_SMALL entry that sits in
the same blocking error list (neither INVALID_FUND_SIZE nor
FUND_SIZE_TOO_LARGE is raised for it, but the forecast gate still throws);
fundLifeQuarters > 60 yields an EXCESSIVE_FUND_LIFE entry that is likewise a
blocking error, not a mere warning. -/
theorem validate_severity_amended (a b c : EnhancedFundInputs)
    (sim : EnhancedFundInputs → Except String ForecastResult) (st : CalculationState)
    (ha : a.fundSize = -1) (hb : b.fundSize = 5000000) (hc : 60 < c.fundLifeQuarters) :
    ((validateFundInputs a).any fun e => e.code == VCode.invalidFundSize) = true ∧
    ((validateFundInputs b).any fun e => e.code == VCode.fundSizeTooSmall) = true ∧
    ((validateFundInputs b).any fun e => e.code == VCode.invalidFundSize) = false ∧
    ((validateFundInputs b).any fun e => e.code == VCode.fundSizeTooLarge) = false ∧
    (calculateForecast sim st b).2 =
      .error (.validationFailure (validateFundInputs b)) ∧
    ((validateFundInputs c).any fun e => e.code == VCode.excessiveFundLife) = true ∧
    (calculateForecast sim st c).2 =
      .error (.validationFailure (validateFundInputs c)) := by
  have hfsa : (⟨.fundSize, .invalidFundSize, some a.fundSize, none⟩ : ValidationError)
      ∈ fundSizeErrors a := by
    unfold fundSizeErrors
    rw [if_pos (by rw [ha]; norm_num)]
    simp
  have hfsb : fundSizeErrors b =
      [⟨.fundSize, .fundSizeTooSmall, some b.fundSize, some sugFundSizeSmall⟩] := by
    unfold fundSizeErrors
    rw [if_neg (by rw [hb]; norm_num), if_pos (by rw [hb]; norm_num)]
  have hmemb : (⟨.fundSize, .fundSizeTooSmall, some b.fundSize, some sugFundSizeSmall⟩ :
      ValidationError) ∈ fundSizeErrors b := by
    rw [hfsb]
    simp
  have hflc : (⟨.fundLifeQuarters, .excessiveFundLife, some c.fundLifeQuarters,
      some sugFundLife⟩ : ValidationError) ∈ fundLifeErrors c := by
    unfold fundLifeErrors
    rw [if_pos hc]
    simp
  have hmemb2 := mem_validate_of_mem_fundSize hmemb
  have hmemc2 := mem_validate_of_mem_fundLife hflc
  have hneb : validateFundInputs b ≠ [] := List.ne_nil_of_mem hmemb2
  have hnec : validateFundInputs c ≠ [] := List.ne_nil_of_mem hmemc2
  refine ⟨any_validate_of_mem (mem_validate_of_mem_fundSize hfsa) rfl,
          any_validate_of_mem hmemb2 rfl, ?_, ?_, ?_, any_validate_of_mem hmemc2 rfl, ?_⟩
  · rw [List.any_eq_false]
    intro e he
    simp only [beq_iff_eq]
    intro hcode
    have hin := fundSize_codes_only he (Or.inl hcode)
    rw [hfsb] at hin
    simp only [List.mem_singleton] at hin
    rw [hin] at hcode
    simp at hcode
  · rw [List.any_eq_false]
    intro e he
    simp only [beq_iff_eq]
    intro hcode
    have hin := fundSize_codes_only he (Or.inr (Or.inr hcode))
    rw [hfsb] at hin
    simp only [List.mem_singleton] at hin
    rw [hin] at hcode
    simp at hcode
  · unfold calculateForecast
    rw [if_pos hneb]
  · unfold calculateForecast
    rw [if_pos hnec]

/-- Claim C2 witness: the amended statement at the default configuration with
fundSize -1, fundSize 5,000,000 and fundLifeQuarters 61 respectively. -/
theorem validate_severity_amended_witness :
    cfgNeg.fundSize = -1 ∧ cfg5M.fundSize = 5000000 ∧ 60 < cfgLife61.fundLifeQuarters ∧
    (((validateFundInputs cfgNeg).any fun e => e.code == VCode.invalidFundSize) = true ∧
     ((validateFundInputs cfg5M).any fun e => e.code == VCode.fundSizeTooSmall) = true ∧
     ((validateFundInputs cfg5M).any fun e => e.code == VCode.invalidFundSize) = false ∧
     ((validateFundInputs cfg5M).any fun e => e.code == VCode.fundSizeTooLarge) = false ∧
     (calculateForecast simOk state0 cfg5M).2 =
       .error (.validationFailure (validateFundInputs cfg5M)) ∧
     ((validateFundInputs cfgLife61).any fun e => e.code == VCode.excessiveFundLife) = true ∧
     (calculateForecast simOk state0 cfgLife61).2 =
       .error (.validationFailure (validateFundInputs cfgLife61))) :=
  ⟨rfl, rfl, by norm_num [cfgLife61, cfgBase],
   validate_severity_amended cfgNeg cfg5M cfgLife61 simOk state0 rfl rfl
     (by norm_num [cfgLife61, cfgBase])⟩

/-- Claim C3: whenever validation returns at least one error,
calculateForecast throws a ValidationFailure carrying the full structured
error list, its result is independent of the simulation function (the
simulation is never invoked), and the stored forecast result is unchanged. -/
theorem calculateForecast_blocks_on_errors
    (sim sim2 : EnhancedFundInputs → Except String ForecastResult)
    (st : CalculationState) (inputs : EnhancedFundInputs)
    (h : validateFundInputs inputs ≠ []) :
    calculateForecast sim st inputs = calculateForecast sim2 st inputs ∧
    (calculateForecast sim st inputs).2 =
      .error (.validationFailure (validateFundInputs inputs)) ∧
    ((calculateForecast sim st inputs).1).forecastResult = st.forecastResult := by
  unfold calculateForecast
  simp only [if_pos h]
  exact ⟨trivial, trivial, trivial⟩

/-- Claim C3 witness: at fundSize = -1, calculateForecast throws the same
ValidationFailure under an always-succeeding and an always-throwing
simulation, and the stored forecast result stays `none`. -/
theorem calculateForecast_blocks_on_errors_witness :
    validateFundInputs cfgNeg ≠ [] ∧
    (calculateForecast simOk state0 cfgNeg = calculateForecast simFail state0 cfgNeg ∧
     (calculateForecast simOk state0 cfgNeg).2 =
       .error (.validationFailure (validateFundInputs cfgNeg)) ∧
     ((calculateForecast simOk state0 cfgNeg).1).forecastResult = state0.forecastResult) :=
  have hne : validateFundInputs cfgNeg ≠ [] :=
    List.ne_nil_of_mem (mem_validate_of_mem_fundSize (show
      (⟨.fundSize, .invalidFundSize, some cfgNeg.fundSize, none⟩ : ValidationError) ∈
        fundSizeErrors cfgNeg by
      unfold fundSizeErrors
      rw [if_pos (by norm_num [cfgNeg, cfgBase])]
      simp))
  ⟨hne, calculateForecast_blocks_on_errors simOk simFail state0 cfgNeg hne⟩

/-- Claim C1 (the code at the failing input): the mock calculateForecast
draws from unseeded Math.random for every timeline point, so two runs of the
identical configuration (the default fundSize of 100,000,000) whose draws
differ — one run drawing 0, the other 0.5 — produce different
ForecastResults: the first timeline point's nav is 0 versus 15,000,000
(using only the exact float fact Math.exp(0) = 1). -/
theorem mock_forecast_not_reproducible (exp10 exp8 : ℕ → ℚ) (hexp : exp10 0 = 1) :
    mockCalculateForecast 100000000 (fun _ => 0) exp10 exp8 ≠
      mockCalculateForecast 100000000 (fun _ => 1/2) exp10 exp8 := by
  intro heq
  have h1 := congrArg (fun r => (r.timeline.head?).map MockTimelinePoint.nav) heq
  simp only [mockCalculateForecast, List.head?_map] at h1
  have hr : (List.range 40).head? = some 0 := by decide
  rw [hr] at h1
  simp only [Option.map_map, Option.map_some', Function.comp_apply,
    Option.some.injEq] at h1
  rw [hexp] at h1
  norm_num at h1

/-- Claim C1 witness: the inequality at concrete exponential streams
(constantly 1, satisfying the exp 0 = 1 side condition). -/
theorem mock_forecast_not_reproducible_witness :
    (fun _ : ℕ => (1 : ℚ)) 0 = 1 ∧
    mockCalculateForecast 100000000 (fun _ => 0) (fun _ => 1) (fun _ => 1) ≠
      mockCalculateForecast 100000000 (fun _ => 1/2) (fun _ => 1) (fun _ => 1) :=
  ⟨rfl, mock_forecast_not_reproducible (fun _ => 1) (fun _ => 1) rfl⟩

/-! ## The batch runner: divergence of the web-worker dispatch, and the
variance pass on the sequential path -/

/-- With web workers enabled (the source initialises useWebWorkers to true
and never writes it) and more than five scenarios, run dispatches to
runWithWebWorkers, whose whole body calls run again: the call never returns,
at any call depth. -/
theorem run_none_of_big (sim : EnhancedFundInputs → Except String ForecastResult)
    (runner : EnhancedBatchRunner) (hw : runner.useWebWorkers = true)
    (h5 : 5 < runner.scenarios.length) : ∀ fuel, run sim fuel runner = none := by
  intro fuel
  induction fuel with
  | zero => rfl
  | succ n ih =>
      show run sim (n + 1) runner = none
      simp only [run]
      rw [if_pos ⟨hw, h5⟩]
      exact ih

theorem runScenarioStep_definition (sim : EnhancedFundInputs → Except String ForecastResult)
    (b : EnhancedFundInputs) (s : ScenarioDefinition) :
    (runScenarioStep sim b s).definition = s := by
  unfold runScenarioStep
  cases sim (applyScenarioOverrides b s) <;> rfl

theorem runScenarioStep_scenarioId (sim : EnhancedFundInputs → Except String ForecastResult)
    (b : EnhancedFundInputs) (s : ScenarioDefinition) :
    (runScenarioStep sim b s).scenarioId = s.id := by
  unfold runScenarioStep
  cases sim (applyScenarioOverrides b s) <;> rfl

theorem runScenarioStep_variance (sim : EnhancedFundInputs → Except String ForecastResult)
    (b : EnhancedFundInputs) (s : ScenarioDefinition) :
    (runScenarioStep sim b s).varianceFromBaseline = none := by
  unfold runScenarioStep
  cases sim (applyScenarioOverrides b s) <;> rfl

/-- In a list with exactly one element satisfying p, any two members
satisfying p are equal. -/
theorem eq_of_countP_eq_one {α : Type} {p : α → Bool} {l : List α}
    (h : l.countP p = 1) {x y : α} (hx : x ∈ l) (px : p x = true)
    (hy : y ∈ l) (py : p y = true) : x = y := by
  have hf : (l.filter p).length = 1 := by
    rw [← List.countP_eq_length_filter]
    exact h
  obtain ⟨z, hz⟩ := List.length_eq_one.mp hf
  have hxz : x ∈ l.filter p := List.mem_filter.mpr ⟨hx, px⟩
  have hyz : y ∈ l.filter p := List.mem_filter.mpr ⟨hy, py⟩
  rw [hz, List.mem_singleton] at hxz hyz
  rw [hxz, hyz]

theorem countP_not_eq {α : Type} (l : List α) (p : α → Bool) :
    (l.countP fun a => !(p a)) = l.length - l.countP p := by
  induction l with
  | nil => rfl
  | cons a t ih =>
      have hle : t.countP p ≤ t.length := List.countP_le_length p
      simp only [List.countP_cons, List.length_cons]
      cases hpa : p a
      · simp [hpa, ih]
        omega
      · simp [hpa, ih]


/-- The claim "run yields a result list with exactly k varianceFromBaseline
records": some call depth returns, and the results carry exactly k records. -/
def runYieldsVarianceCount (sim : EnhancedFundInputs → Except String ForecastResult)
    (runner : EnhancedBatchRunner) (k : ℕ) : Prop :=
  ∃ fuel out, run sim fuel runner = some out ∧
    (out.1.countP fun r => r.varianceFromBaseline.isSome) = k

/-- Claim C4 (the code at the failing input): a batch of six scenarios with
the source's default useWebWorkers = true never returns a result list at any
call depth, for every simulation function — in particular for one that
throws on a scenario. No 6-entry list with an isolated error placeholder is
ever produced: run and runWithWebWorkers recurse into each other forever. -/
theorem run_six_scenarios_never_returns
    (sim : EnhancedFundInputs → Except String ForecastResult) (fuel : ℕ) :
    run sim fuel runnerSix = none :=
  run_none_of_big sim runnerSix rfl (by norm_num [runnerSix, sixScenarios]) fuel

/-- Claim C6 (the code at the failing input): for the six-scenario batch the
run never returns, so the sequence of onProgress percentages is never
produced — onProgress is not called once per scenario and no final 100 is
ever reported. -/
theorem run_six_scenarios_no_progress
    (sim : EnhancedFundInputs → Except String ForecastResult) (fuel : ℕ) :
    (run sim fuel runnerSix).map (fun out => out.2) = none := by
  rw [run_none_of_big sim runnerSix rfl (by norm_num [runnerSix, sixScenarios]) fuel]
  rfl

/-- Claim C10 (the code at the failing input): runWithWebWorkers does
delegate to run — the two calls are the same computation — but for a batch of
more than five scenarios run immediately dispatches back to
runWithWebWorkers, so neither ever returns the sequential results: batches of
more than 5 scenarios are not executed sequentially, they do not terminate. -/
theorem runWithWebWorkers_six_diverges
    (sim : EnhancedFundInputs → Except String ForecastResult) (fuel : ℕ) :
    runWithWebWorkers sim fuel runnerSix = run sim fuel runnerSix ∧
    run sim fuel runnerSix = none :=
  ⟨rfl, run_none_of_big sim runnerSix rfl (by norm_num [runnerSix, sixScenarios]) fuel⟩

/-- Claim C5 counterexample: a batch of six scenarios of which exactly one is
flagged isBaseline does not yield N − 1 = 5 variance records — the run
returns no result list at all (web-worker dispatch recursion). -/
theorem run_six_baseline_no_variance : ¬ runYieldsVarianceCount simOk runnerSix 5 := by
  rintro ⟨fuel, out, hrun, _⟩
  rw [run_none_of_big simOk runnerSix rfl (by norm_num [runnerSix, sixScenarios]) fuel]
    at hrun
  cases hrun

/-- Claim C5 (amended): for every batch the runner actually executes
sequentially (not dispatched to the web-worker path), with exactly one
scenario flagged isBaseline and scenario ids identifying scenarios uniquely,
run returns at every positive call depth a result list carrying exactly
N − 1 varianceFromBaseline records: none on the baseline result, and on
every non-baseline result one equal to the exact difference
(scenario metric − baseline metric) for netMoic, netIrr and totalValue. -/
theorem run_variance_records (sim : EnhancedFundInputs → Except String ForecastResult)
    (runner : EnhancedBatchRunner) (fuel : ℕ)
    (hseq : ¬(runner.useWebWorkers = true ∧ 5 < runner.scenarios.length))
    (hone : (runner.scenarios.countP fun s => s.isBaseline) = 1)
    (hids : ∀ s1 ∈ runner.scenarios, ∀ s2 ∈ runner.scenarios, s1.id = s2.id → s1 = s2) :
    run sim (fuel + 1) runner = some (runSequential sim runner) ∧
    ((runSequential sim runner).1.countP fun r => r.varianceFromBaseline.isSome) =
      runner.scenarios.length - 1 ∧
    (∀ r ∈ (runSequential sim runner).1, r.definition.isBaseline = true →
      r.varianceFromBaseline = none) ∧
    (∀ b ∈ (runSequential sim runner).1, b.definition.isBaseline = true →
      ∀ r ∈ (runSequential sim runner).1, r.definition.isBaseline = false →
        r.varianceFromBaseline = some
          { netMoic := r.result.netMoic - b.result.netMoic
            netIrr := r.result.netIrr - b.result.netIrr
            totalValue := r.result.totalValue - b.result.totalValue }) := by
  set L := runner.scenarios.map (runScenarioStep sim runner.baseInputs) with hL
  have hstep : ∀ r ∈ L, r.varianceFromBaseline = none ∧
      r.definition ∈ runner.scenarios ∧ r.scenarioId = r.definition.id := by
    intro r hr
    obtain ⟨s, hs, rfl⟩ := List.mem_map.mp hr
    refine ⟨runScenarioStep_variance sim runner.baseInputs s, ?_, ?_⟩
    · rw [runScenarioStep_definition]
      exact hs
    · rw [runScenarioStep_definition, runScenarioStep_scenarioId]
  have hcount1 : (L.countP fun r => r.definition.isBaseline) = 1 := by
    rw [hL, List.countP_map]
    rw [← hone]
    apply List.countP_congr
    intro s hs
    simp [Function.comp, runScenarioStep_definition]
  have hfindex : ∃ r ∈ L, (r.definition.isBaseline : Bool) := by
    rw [← List.countP_pos_iff]
    omega
  have hfind : ∃ b, L.find? (fun r => r.definition.isBaseline) = some b := by
    rw [← Option.isSome_iff_exists, List.find?_isSome]
    obtain ⟨r, hr, hp⟩ := hfindex
    exact ⟨r, hr, hp⟩
  obtain ⟨b, hfind⟩ := hfind
  have hb_mem : b ∈ L := List.mem_of_find?_eq_some hfind
  have hb_base : b.definition.isBaseline = true := by
    have := List.find?_some hfind
    simpa using this
  have huniq : ∀ r ∈ L, r.definition.isBaseline = true → r = b := by
    intro r hr hbase
    obtain ⟨s, hs, rfl⟩ := List.mem_map.mp hr
    obtain ⟨sb, hsb, rfl⟩ := List.mem_map.mp hb_mem
    rw [runScenarioStep_definition] at hbase
    rw [runScenarioStep_definition] at hb_base
    rw [eq_of_countP_eq_one hone hs hbase hsb hb_base]
  have hid_ne : ∀ r ∈ L, r.definition.isBaseline = false → r.scenarioId ≠ b.scenarioId := by
    intro r hr hbase hideq
    obtain ⟨s, hs, rfl⟩ := List.mem_map.mp hr
    obtain ⟨sb, hsb, rfl⟩ := List.mem_map.mp hb_mem
    rw [runScenarioStep_scenarioId, runScenarioStep_scenarioId] at hideq
    have := hids s hs sb hsb hideq
    rw [runScenarioStep_definition] at hbase
    rw [runScenarioStep_definition] at hb_base
    rw [this] at hbase
    rw [hbase] at hb_base
    cases hb_base
  have hseqeq : (runSequential sim runner).1 = applyBaselineVariance L := by
    rw [runSequential, hL]
  have hvar : applyBaselineVariance L = L.map fun r =>
      if r.scenarioId ≠ b.scenarioId then
        { r with varianceFromBaseline := some {
            netMoic := r.result.netMoic - b.result.netMoic
            netIrr := r.result.netIrr - b.result.netIrr
            totalValue := r.result.totalValue - b.result.totalValue } }
      else r := by
    rw [applyBaselineVariance, hfind]
  refine ⟨?_, ?_, ?_, ?_⟩
  · show run sim (fuel + 1) runner = some (runSequential sim runner)
    simp only [run]
    rw [if_neg hseq]
  · rw [hseqeq, hvar, List.countP_map]
    have hcongr : ∀ r ∈ L,
        ((if r.scenarioId ≠ b.scenarioId then
            { r with varianceFromBaseline := some {
                netMoic := r.result.netMoic - b.result.netMoic
                netIrr := r.result.netIrr - b.result.netIrr
                totalValue := r.result.totalValue - b.result.totalValue } }
          else r).varianceFromBaseline.isSome) =
          !(r.definition.isBaseline) := by
      intro r hr
      by_cases hbase : r.definition.isBaseline = true
      · have hrb := huniq r hr hbase
        subst hrb
        rw [if_neg (by simp)]
        rw [(hstep r hr).1, hbase]
        rfl
      · rw [Bool.not_eq_true] at hbase
        rw [if_pos (hid_ne r hr hbase)]
        rw [hbase]
        rfl
    rw [List.countP_congr (fun r hr => by rw [Function.comp_apply, hcongr r hr])]
    rw [countP_not_eq, hcount1]
    rw [hL, List.length_map]
  · intro r hr hbase
    rw [hseqeq, hvar] at hr
    obtain ⟨r0, hr0, rfl⟩ := List.mem_map.mp hr
    by_cases hc : r0.scenarioId ≠ b.scenarioId
    · rw [if_pos hc] at hbase ⊢
      have hr0base : r0.definition.isBaseline = true := hbase
      have := huniq r0 hr0 hr0base
      subst this
      exact absurd rfl hc
    · rw [if_neg hc] at hbase ⊢
      exact (hstep r0 hr0).1
  · intro bb hbb hbbbase r hr hrbase
    rw [hseqeq, hvar] at hbb hr
    obtain ⟨b0, hb0, rfl⟩ := List.mem_map.mp hbb
    obtain ⟨r0, hr0, rfl⟩ := List.mem_map.mp hr
    have hb0base : b0.definition.isBaseline = true := by
      by_cases hc : b0.scenarioId ≠ b.scenarioId
      · rw [if_pos hc] at hbbbase
        exact hbbbase
      · rw [if_neg hc] at hbbbase
        exact hbbbase
    have hb0b : b0 = b := huniq b0 hb0 hb0base
    subst hb0b
    have hbbeq : (if b0.scenarioId ≠ b0.scenarioId then
        { b0 with varianceFromBaseline := some {
            netMoic := b0.result.netMoic - b0.result.netMoic
            netIrr := b0.result.netIrr - b0.result.netIrr
            totalValue := b0.result.totalValue - b0.result.totalValue } }
        else b0) = b0 := by
      rw [if_neg (by simp)]
    rw [hbbeq]
    have hr0base : r0.definition.isBaseline = false := by
      by_cases hc : r0.scenarioId ≠ b0.scenarioId
      · rw [if_pos hc] at hrbase
        exact hrbase
      · rw [if_neg hc] at hrbase
        exact hrbase
    rw [if_pos (hid_ne r0 hr0 hr0base)]

/-- Claim C5 witness: a three-scenario sequential batch (ids 1, 2, 3; the
second flagged baseline) under an always-succeeding simulation. -/
theorem run_variance_records_witness :
    (¬(runnerThree.useWebWorkers = true ∧ 5 < runnerThree.scenarios.length)) ∧
    (runnerThree.scenarios.countP fun s => s.isBaseline) = 1 ∧
    (∀ s1 ∈ runnerThree.scenarios, ∀ s2 ∈ runnerThree.scenarios,
      s1.id = s2.id → s1 = s2) ∧
    (run simOk 1 runnerThree = some (runSequential simOk runnerThree) ∧
     ((runSequential simOk runnerThree).1.countP
        fun r => r.varianceFromBaseline.isSome) = runnerThree.scenarios.length - 1 ∧
     (∀ r ∈ (runSequential simOk runnerThree).1, r.definition.isBaseline = true →
       r.varianceFromBaseline = none) ∧
     (∀ b ∈ (runSequential simOk runnerThree).1, b.definition.isBaseline = true →
       ∀ r ∈ (runSequential simOk runnerThree).1, r.definition.isBaseline = false →
         r.varianceFromBaseline = some
           { netMoic := r.result.netMoic - b.result.netMoic
             netIrr := r.result.netIrr - b.result.netIrr
             totalValue := r.result.totalValue - b.result.totalValue })) :=
  ⟨by norm_num [runnerThree], by simp [runnerThree, plainScenario, List.countP_cons],
   by simp [runnerThree, plainScenario],
   run_variance_records simOk runnerThree 0
     (by norm_num [runnerThree])
     (by simp [runnerThree, plainScenario, List.countP_cons])
     (by simp [runnerThree, plainScenario])⟩

/-! ## Frame property of the batch runner -/

theorem Heap.extends_refl (h : Heap) : h.Extends h := ⟨le_refl _, fun _ _ => rfl⟩

theorem Heap.extends_trans {h1 h2 h3 : Heap} (a : h1.Extends h2) (b : h2.Extends h3) :
    h1.Extends h3 := by
  refine ⟨le_trans a.1 b.1, fun r hr => ?_⟩
  rw [b.2 r (lt_of_lt_of_le hr a.1), a.2 r hr]

theorem Heap.alloc_extends (h : Heap) (o : HeapObj) : h.Extends (h.alloc o).1 := by
  refine ⟨by simp [Heap.alloc], fun r hr => ?_⟩
  simp only [Heap.alloc, Heap.read]
  exact List.getElem?_append_left hr

theorem applyFundSizeOverride_fst (o : Option ℚ) (p : Heap × FundInputsRef) :
    (applyFundSizeOverride o p).1 = p.1 := by
  cases o <;> rfl

theorem applyTimingOverride_fst (o : Option TimingAdjustments) (p : Heap × FundInputsRef) :
    (applyTimingOverride o p).1 = p.1 := by
  rcases o with _ | t
  · rfl
  · rcases ht : t.deploymentAcceleration with _ | d
    · simp [applyTimingOverride, ht]
    · simp only [applyTimingOverride, ht]
      split_ifs <;> rfl

theorem applyStageAllocOverride_extends {o : Option (List (FundStage × ℚ))}
    {p q : Heap × FundInputsRef} (h : applyStageAllocOverride o p = some q) :
    p.1.Extends q.1 := by
  unfold applyStageAllocOverride at h
  split at h
  · split at h
    · injection h with h
      subst h
      exact Heap.alloc_extends _ _
    · cases h
  · injection h with h
    subst h
    exact Heap.extends_refl _

theorem applyExitProbsOverride_extends {o : Option PartialExitProbabilityMatrix}
    {p q : Heap × FundInputsRef} (h : applyExitProbsOverride o p = some q) :
    p.1.Extends q.1 := by
  unfold applyExitProbsOverride at h
  split at h
  · split at h
    · injection h with h
      subst h
      exact Heap.alloc_extends _ _
    · cases h
  · injection h with h
    subst h
    exact Heap.extends_refl _

theorem applyFeeAdjustOverride_extends {o : Option PartialFeeProfile}
    {p q : Heap × FundInputsRef} (h : applyFeeAdjustOverride o p = some q) :
    p.1.Extends q.1 := by
  unfold applyFeeAdjustOverride at h
  split at h
  · split at h
    · injection h with h
      subst h
      exact Heap.alloc_extends _ _
    · cases h
  · injection h with h
    subst h
    exact Heap.extends_refl _

/-- applyScenarioOverrides never writes an existing heap cell: it only
allocates fresh objects and repoints fields of the shallow copy. -/
theorem applyScenarioOverridesH_extends {h : Heap} {base : FundInputsRef}
    {scenario : ScenarioDefinition} {h2 : Heap} {m : FundInputsRef}
    (hap : applyScenarioOverridesH h base scenario = some (h2, m)) : h.Extends h2 := by
  simp only [applyScenarioOverridesH, Option.bind_eq_bind, Option.pure_def] at hap
  cases e1 : applyStageAllocOverride scenario.parameterOverrides.stageAllocations
      (applyFundSizeOverride scenario.parameterOverrides.fundSize (h, base)) with
  | none =>
      rw [e1] at hap
      cases hap
  | some p1 =>
      rw [e1] at hap
      simp only [Option.some_bind] at hap
      cases e2 : applyExitProbsOverride scenario.parameterOverrides.exitProbabilities p1 with
      | none =>
          rw [e2] at hap
          cases hap
      | some p2 =>
          rw [e2] at hap
          simp only [Option.some_bind] at hap
          cases e3 : applyFeeAdjustOverride scenario.parameterOverrides.feeAdjustments p2 with
          | none =>
              rw [e3] at hap
              cases hap
          | some p3 =>
              rw [e3] at hap
              simp only [Option.some_bind] at hap
              injection hap with hap
              have hfst : h2 = p3.1 := by
                have hcong := congrArg Prod.fst hap
                rw [applyTimingOverride_fst] at hcong
                exact hcong.symm
              rw [hfst]
              have hs1 : h.Extends p1.1 := by
                have := applyStageAllocOverride_extends e1
                rwa [applyFundSizeOverride_fst] at this
              exact Heap.extends_trans hs1
                (Heap.extends_trans (applyExitProbsOverride_extends e2)
                  (applyFeeAdjustOverride_extends e3))

theorem runScenarioListH_extends (sim : SimH) (scenarios : List ScenarioDefinition) :
    ∀ (h : Heap) (base : FundInputsRef) (h2 : Heap) (results : List ScenarioResult),
      runScenarioListH sim h base scenarios = some (h2, results) → h.Extends h2 := by
  induction scenarios with
  | nil =>
      intro h base h2 results hrun
      unfold runScenarioListH at hrun
      injection hrun with hrun
      cases hrun
      exact Heap.extends_refl h
  | cons scenario rest ih =>
      intro h base h2 results hrun
      simp only [runScenarioListH] at hrun
      split at hrun
      · cases hrun
      · rename_i hmid modified e1
        split at hrun
        · cases hrun
        · rename_i h3 results2 e2
          injection hrun with hrun
          cases hrun
          exact Heap.extends_trans (applyScenarioOverridesH_extends e1)
            (ih hmid base _ _ e2)

theorem runH_extends (sim : SimH) : ∀ (fuel : ℕ) (h : Heap)
    (runner : EnhancedBatchRunnerH) (h2 : Heap) (out : List ScenarioResult × List ℚ),
    runH sim fuel h runner = some (h2, out) → h.Extends h2 := by
  intro fuel
  induction fuel with
  | zero =>
      intro h runner h2 out hrun
      cases hrun
  | succ n ih =>
      intro h runner h2 out hrun
      simp only [runH] at hrun
      split_ifs at hrun with hcond
      · exact ih h runner h2 out hrun
      · split at hrun
        · cases hrun
        · rename_i h3 results e
          injection hrun with hrun
          cases hrun
          exact runScenarioListH_extends sim runner.scenarios h runner.baseInputs
            _ _ e

theorem read_lt_length {h : Heap} {r : Ref} {o : HeapObj} (hr : h.read r = some o) :
    r < h.length := by
  by_contra hge
  push_neg at hge
  rw [Heap.read, List.getElem?_eq_none hge] at hr
  cases hr

/-- Every old cell reads the same in the extended heap, so dereferencing the
baseline inputs yields the same configuration value. -/
theorem materialize_extends {h h2 : Heap} (hE : h.Extends h2) {i : FundInputsRef}
    {q : EnhancedFundInputs} (hq : materialize h i = some q) : materialize h2 i = some q := by
  unfold materialize at hq ⊢
  split at hq
  case _ l f g m em e1 e2 e3 e4 e5 =>
    rw [hE.2 i.stageStrategies (read_lt_length e1), e1,
        hE.2 i.feeProfile (read_lt_length e2), e2,
        hE.2 i.graduationMatrix (read_lt_length e3), e3,
        hE.2 i.exitProbabilityMatrix (read_lt_length e4), e4,
        hE.2 i.exitMultiples (read_lt_length e5), e5]
    exact hq
  case _ =>
    cases hq

/-- The proposition that every cell of the old heap reads the same in the
new heap. -/
def FramePreserved (h h2 : Heap) : Prop :=
  ∀ r, r < h.length → h2.read r = h.read r

/-- The proposition that dereferencing the given inputs yields the same
configuration before and after. -/
def BaselinePreserved (h h2 : Heap) (i : FundInputsRef) : Prop :=
  ∀ q, materialize h i = some q → materialize h2 i = some q

/-- Claim C9: whenever a batch run returns, every heap object that existed
before the run — in particular every nested object of the caller-supplied
baseline configuration — reads unchanged, and dereferencing the baseline
inputs yields the identical configuration value: the engine never mutates
the caller-supplied configuration; each scenario is computed from freshly
allocated modified objects. -/
theorem runH_no_mutation (sim : SimH) (fuel : ℕ) (h : Heap)
    (runner : EnhancedBatchRunnerH) (h2 : Heap) (out : List ScenarioResult × List ℚ)
    (hrun : runH sim fuel h runner = some (h2, out)) :
    FramePreserved h h2 ∧ BaselinePreserved h h2 runner.baseInputs := by
  have hE := runH_extends sim fuel h runner h2 out hrun
  exact ⟨hE.2, fun q hq => materialize_extends hE hq⟩

/-- The heap holding the default configuration's nested objects. -/
def heap0 : Heap :=
  [ .strategies cfgBase.stageStrategies, .fees cfgBase.feeProfile,
    .gradMatrix cfgBase.graduationMatrix, .exitProbs cfgBase.exitProbabilityMatrix,
    .exitMults cfgBase.exitMultiples ]

/-- The default configuration at the reference level, pointing into heap0. -/
def baseRef0 : FundInputsRef :=
  { fundName := baseFundName
    fundSize := 100000000
    currency := .usd
    vintage := 2024
    feeProfile := 1
    stageStrategies := 0
    graduationMatrix := 2
    exitProbabilityMatrix := 3
    exitMultiples := 4
    investmentPeriodQuarters := 20
    fundLifeQuarters := 40
    waterfallType := .american
    lpClawback := true }

/-- A scenario with a (vacuous) stageAllocations override: the runner reads
the shared strategies array and allocates a fresh copy for the scenario. -/
def scenarioAlloc : ScenarioDefinition :=
  { plainScenario 7 false with
    parameterOverrides := { noOverrides with stageAllocations := some [] } }

def runnerH1 : EnhancedBatchRunnerH :=
  { scenarios := [scenarioAlloc], baseInputs := baseRef0, useWebWorkers := true,
    maxWorkers := 4 }

/-- A reference-level simulation stand-in that always throws. -/
def simW : SimH := fun _ _ => .error failStubMsg

/-- The heap after the witness run: the original five cells plus the freshly
allocated strategies copy. -/
def heapW : Heap := heap0 ++ [.strategies cfgBase.stageStrategies]

def outW : List ScenarioResult × List ℚ :=
  (applyBaselineVariance
     [{ scenarioId := 7, definition := scenarioAlloc,
        result := createErrorResult failStubMsg,
        varianceFromBaseline := none, warnings := [failStubMsg] }],
   progressReports 1)

/-- Claim C9 witness: a one-scenario run over the default configuration's
heap allocates one fresh cell and leaves the five original cells — and the
materialized baseline configuration — untouched. -/
theorem runH_no_mutation_witness :
    FramePreserved heap0 heapW ∧ BaselinePreserved heap0 heapW baseRef0 :=
  runH_no_mutation simW 1 heap0 runnerH1 heapW outW rfl

/-! ## Supporting facts about the sequential path (the path the web-worker
dispatch never reaches for batches of more than five scenarios) -/

/-- A throwing scenario is converted into an error ScenarioResult: the
placeholder forecast, the message in the warnings list. -/
theorem runScenarioStep_error (sim : EnhancedFundInputs → Except String ForecastResult)
    (b : EnhancedFundInputs) (s : ScenarioDefinition) (msg : String)
    (h : sim (applyScenarioOverrides b s) = .error msg) :
    runScenarioStep sim b s =
      { scenarioId := s.id, definition := s, result := createErrorResult msg,
        varianceFromBaseline := none, warnings := [msg] } := by
  unfold runScenarioStep
  rw [h]

/-- The sequential loop always produces one ScenarioResult and one progress
report per scenario. -/
theorem runSequential_length (sim : EnhancedFundInputs → Except String ForecastResult)
    (runner : EnhancedBatchRunner) :
    (runSequential sim runner).1.length = runner.scenarios.length ∧
    (runSequential sim runner).2.length = runner.scenarios.length := by
  constructor
  · rw [runSequential]
    unfold applyBaselineVariance
    cases (runner.scenarios.map (runScenarioStep sim runner.baseInputs)).find?
        (fun r => r.definition.isBaseline) <;> simp
  · rw [runSequential]
    simp [progressReports]

/-- The sequential progress percentages are strictly increasing. -/
theorem progressReports_strict_increasing (n : ℕ) :
    (progressReports n).Pairwise (· < ·) := by
  unfold progressReports
  rw [List.pairwise_map]
  refine List.Pairwise.imp_of_mem ?_ (List.pairwise_lt_range n)
  intro i j hi hj hij
  have hn : 0 < n := lt_of_le_of_lt (Nat.zero_le j) (List.mem_range.mp hj)
  have hnq : (0 : ℚ) < n := by exact_mod_cast hn
  have hlt : (i : ℚ) + 1 < (j : ℚ) + 1 := by exact_mod_cast Nat.succ_lt_succ hij
  gcongr

/-- The last sequential progress report is exactly 100. -/
theorem progressReports_last (n : ℕ) (h : 0 < n) :
    (progressReports n)[n - 1]? = some 100 := by
  unfold progressReports
  rw [List.getElem?_map, List.getElem?_range (by omega)]
  have hn : ((n - 1 : ℕ) : ℚ) + 1 = (n : ℚ) := by
    have h2 : (n - 1) + 1 = n := Nat.succ_pred_eq_of_pos h
    exact_mod_cast congrArg (Nat.cast : ℕ → ℚ) h2
  simp only [Option.map_some']
  have hne : (n : ℚ) ≠ 0 := Nat.cast_ne_zero.mpr (by omega)
  rw [hn, div_self hne]
  norm_num

end Updog
